import Mathlib

/-!
# CertDeliver server — shallow embedding and verification

This file embeds the server-side decision layer of the CertDeliver
repository in Lean 4 and proves properties of it:

* `src/certdeliver/server/auth.py` — token/permission validation
  (`verify_access`, `TokenValidator`) with per-IP failed-attempt
  counters and blocking;
* `src/certdeliver/server/whitelist.py` — the DNS-backed IP whitelist
  cache (`WhitelistManager`);
* `src/certdeliver/server/routes.py` — filename parsing
  (`_parse_cert_filename`) and the request handler (`get_certificate`),
  including its audit-record emission (`_log_audit`).

Python strings are `String`, dicts are association lists, sets are
lists (membership only), `datetime` instants are `Int` clock readings
passed explicitly, and DNS resolution is an explicit oracle
`String → DnsOutcome`.  Fallible Python code (raising `ValueError`)
becomes `Option`.
-/

namespace CertDeliver

/-! ## Glob matching (Python `fnmatch.fnmatch`)

`fnmatch.fnmatch(name, pattern)` on a POSIX system (where
`os.path.normcase` is the identity) matches `*` against any run of
characters, `?` against any single character, and every other
character literally.  Character classes `[...]` are not modelled; no
pattern in this development uses them. -/

/-- Match a glob pattern (first argument) against a character list:
`*` absorbs any (possibly empty) run, i.e. the rest of the pattern must
match some suffix of the string; `?` absorbs one character; any other
character matches itself. -/
def globMatch : List Char → List Char → Bool
  | [], s => s.isEmpty
  | '*' :: p, s => s.tails.any (fun t => globMatch p t)
  | '?' :: _, [] => false
  | '?' :: p, _ :: s => globMatch p s
  | _ :: _, [] => false
  | c :: p, d :: s => c = d && globMatch p s

/-- Python `fnmatch.fnmatch(name, pattern)` (POSIX, no character classes). -/
def fnmatch (name pattern : String) : Bool :=
  globMatch pattern.data name.data

/-! ## `auth.py` -/

/-- The token→patterns map of `auth.py`, a Python `dict[str, list[str]]`,
as an association list in insertion order. -/
abbrev TokensMap := List (String × List String)

/-- The `for valid_token, patterns in tokens_map.items()` loop of
`verify_access`: on the first token equal to the provided one, return
whether any of its patterns matches the filename (the loop `return`s
inside the matched iteration, so later entries are never consulted). -/
def verifyAccessLoop (provided_token filename : String) : TokensMap → Bool
  | [] => false
  | (valid_token, patterns) :: rest =>
    if provided_token = valid_token then
      patterns.any (fun pattern => fnmatch filename pattern)
    else
      verifyAccessLoop provided_token filename rest

/-- `auth.verify_access(provided_token, filename, tokens_map)`:
false for an empty token, otherwise the loop above.
`secrets.compare_digest` on the UTF-8 encodings is string equality. -/
def verify_access (provided_token filename : String) (tokens_map : TokensMap) : Bool :=
  if provided_token = "" then false
  else verifyAccessLoop provided_token filename tokens_map

/-- `auth.sanitize_log_token(token, visible_chars=4)`. -/
def sanitize_log_token (token : String) (visible_chars : Nat) : String :=
  if token = "" || token.length ≤ visible_chars then "***"
  else "***" ++ String.mk (token.data.drop (token.length - visible_chars))

/-- Count lookup in the `_failed_attempts` dict: `d.get(ip, 0)`. -/
def lookupCount (m : List (String × Nat)) (ip : String) : Nat :=
  match m.find? (fun e => e.1 = ip) with
  | some e => e.2
  | none => 0

/-- `d.pop(ip, None)`: remove the key if present. -/
def popKey (m : List (String × Nat)) (ip : String) : List (String × Nat) :=
  m.filter (fun e => e.1 ≠ ip)

/-- `d[ip] = n`: set the value at the key. -/
def setCount (m : List (String × Nat)) (ip : String) (n : Nat) : List (String × Nat) :=
  (ip, n) :: popKey m ip

/-- State of `auth.TokenValidator`: the configured token map, the
`_failed_attempts` per-IP counters, and `_max_failed_attempts`
(initialised to 5 in `__init__`). -/
structure TokenValidator where
  tokens_map : TokensMap
  failed_attempts : List (String × Nat)
  max_failed_attempts : Nat
deriving Repr, DecidableEq

/-- `TokenValidator(tokens_map)`. -/
def TokenValidator.mk0 (tokens_map : TokensMap) : TokenValidator :=
  { tokens_map := tokens_map, failed_attempts := [], max_failed_attempts := 5 }

/-- `TokenValidator.validate(token, filename, client_ip)`: the boolean
result together with the updated validator state.  The counter update
runs only when the Python test `if client_ip:` passes, i.e. when `client_ip` is
neither `None` nor the empty string. -/
def TokenValidator.validate (v : TokenValidator) (token filename : String)
    (client_ip : Option String) : Bool × TokenValidator :=
  let is_valid := verify_access token filename v.tokens_map
  match client_ip with
  | none => (is_valid, v)
  | some ip =>
    if ip = "" then (is_valid, v)
    else if is_valid then
      (is_valid, { v with failed_attempts := popKey v.failed_attempts ip })
    else
      (is_valid,
       { v with failed_attempts :=
          setCount v.failed_attempts ip (lookupCount v.failed_attempts ip + 1) })

/-- `TokenValidator.is_blocked(client_ip)`:
`self._failed_attempts.get(client_ip, 0) >= self._max_failed_attempts`. -/
def TokenValidator.is_blocked (v : TokenValidator) (client_ip : String) : Bool :=
  v.max_failed_attempts ≤ lookupCount v.failed_attempts client_ip

/-- `TokenValidator.reset_attempts(client_ip)`. -/
def TokenValidator.reset_attempts (v : TokenValidator) (client_ip : String) :
    TokenValidator :=
  { v with failed_attempts := popKey v.failed_attempts client_ip }

/-! ## `_parse_cert_filename` (`routes.py`) -/

/-- Python `filename.replace(".zip", "")`: delete every (left-to-right,
non-overlapping) occurrence of the substring `.zip`. -/
def removeZip : List Char → List Char
  | '.' :: 'z' :: 'i' :: 'p' :: rest => removeZip rest
  | c :: rest => c :: removeZip rest
  | [] => []

/-- Python `base_name.rsplit("_", 1)` when it yields two parts: split at
the last `_`; `none` when the string contains no `_` (the one-part case,
which `_parse_cert_filename` rejects). -/
def rsplitUnderscore : List Char → Option (List Char × List Char)
  | [] => none
  | c :: rest =>
    match rsplitUnderscore rest with
    | some (a, b) => some (c :: a, b)
    | none => if c = '_' then some ([], rest) else none

/-- Digit run of a Python decimal `int()` literal after the first digit:
further digits, optionally separated by single underscores. -/
def pyDigitsCore (acc : Nat) : List Char → Option Nat
  | [] => some acc
  | '_' :: c :: rest =>
    if c.isDigit then pyDigitsCore (acc * 10 + (c.toNat - 48)) rest else none
  | c :: rest =>
    if c.isDigit then pyDigitsCore (acc * 10 + (c.toNat - 48)) rest else none

/-- Nonempty digit run (underscore-separated) of a Python `int()` literal. -/
def pyIntCore : List Char → Option Nat
  | [] => none
  | c :: rest => if c.isDigit then pyDigitsCore (c.toNat - 48) rest else none

/-- Strip leading and trailing whitespace. -/
def stripWs (l : List Char) : List Char :=
  ((l.dropWhile Char.isWhitespace).reverse.dropWhile Char.isWhitespace).reverse

/-- Python `int(s)` for a decimal string: optional surrounding
whitespace, an optional single sign, then ASCII digits optionally
separated by single underscores; anything else raises `ValueError`
(here `none`). -/
def pyInt (s : String) : Option Int :=
  match stripWs s.data with
  | '+' :: rest => (pyIntCore rest).map (fun n => (n : Int))
  | '-' :: rest => (pyIntCore rest).map (fun n => -(n : Int))
  | t => (pyIntCore t).map (fun n => (n : Int))

/-- `routes._parse_cert_filename(filename)`: remove `.zip` occurrences,
split at the last `_` (none → `ValueError`), and parse the final field
with `int` (failure → `ValueError`). -/
def parseCertFilename (filename : String) : Option (String × Int) :=
  let base := removeZip filename.data
  match rsplitUnderscore base with
  | none => none
  | some (name, tsChars) =>
    match pyInt (String.mk tsChars) with
    | none => none
    | some ts => some (String.mk name, ts)

/-! ## `whitelist.py`

`datetime.now()` readings are explicit `Int` arguments; each call that
reads the clock takes the reading it observes.  DNS resolution is an
oracle `String → DnsOutcome` describing, for this cycle, what
`socket.getaddrinfo` does for each domain. -/

/-- Outcome of one `socket.getaddrinfo` call: the resolved IPs, a
`socket.gaierror`, or any other exception. -/
inductive DnsOutcome where
  | success (ips : List String)
  | gaierror
  | otherError
deriving Repr, DecidableEq

/-- State of `whitelist.WhitelistManager`: configured domains, TTL in
seconds, the `_cache` dict (domain → resolved IP set) and
`_last_update`. -/
structure WhitelistManager where
  domains : List String
  cache_ttl : Int
  cache : List (String × List String)
  last_update : Option Int
deriving Repr, DecidableEq

/-- `WhitelistManager(domains, cache_ttl_seconds=300)`. -/
def WhitelistManager.mk0 (domains : List String) : WhitelistManager :=
  { domains := domains, cache_ttl := 300, cache := [], last_update := none }

/-- `WhitelistManager.is_cache_valid` at clock reading `now`:
false when never updated, else `now - last_update < cache_ttl`. -/
def WhitelistManager.is_cache_valid (w : WhitelistManager) (now : Int) : Bool :=
  match w.last_update with
  | none => false
  | some lu => now - lu < w.cache_ttl

/-- `WhitelistManager._resolve_domain_sync(domain)`: the resolved IPs on
success; on `socket.gaierror` or any other exception the handler logs
and falls through, returning the (still empty) `ips` set. -/
def resolveDomainSync (resolver : String → DnsOutcome) (domain : String) :
    List String :=
  match resolver domain with
  | .success ips => ips
  | .gaierror => []
  | .otherError => []

/-- Dict lookup `d.get(k)` / `k in d` on the cache. -/
def cacheLookup (cache : List (String × List String)) (domain : String) :
    Option (List String) :=
  match cache.find? (fun e => e.1 = domain) with
  | some e => some e.2
  | none => none

/-- `new_cache[domain] = v` on a Python dict: replace or append. -/
def dictSet (cache : List (String × List String)) (domain : String)
    (v : List String) : List (String × List String) :=
  if (cache.find? (fun e => e.1 = domain)).isSome then
    cache.map (fun e => if e.1 = domain then (domain, v) else e)
  else
    cache ++ [(domain, v)]

/-- The `for domain, result in zip(self.domains, results)` loop of
`refresh_cache`, building `new_cache`.  A `result` that is an exception
(possible only if the gathered `_resolve_domain` task itself raised,
since `_resolve_domain_sync` swallows resolver errors) keeps the old
cache entry when present; otherwise the new IP set is stored. -/
def refreshMergeLoop (oldCache : List (String × List String)) :
    List (String × Except Unit (List String)) → List (String × List String) →
    List (String × List String)
  | [], new_cache => new_cache
  | (domain, .error _) :: rest, new_cache =>
    (match cacheLookup oldCache domain with
     | some ips => refreshMergeLoop oldCache rest (dictSet new_cache domain ips)
     | none => refreshMergeLoop oldCache rest new_cache)
  | (domain, .ok ips) :: rest, new_cache =>
    refreshMergeLoop oldCache rest (dictSet new_cache domain ips)

/-- `WhitelistManager.refresh_cache(force)`.  `now1` is the clock at the
fast-path validity check, `now2` the clock under the lock (also the new
`_last_update`).  Every gathered result is `Except.ok` of the
synchronous resolution, because `_resolve_domain_sync` catches
`socket.gaierror` and `Exception`, returning a (then empty) IP set
instead of raising. -/
def WhitelistManager.refresh_cache (w : WhitelistManager)
    (resolver : String → DnsOutcome) (now1 now2 : Int) (force : Bool) :
    WhitelistManager :=
  if !force && w.is_cache_valid now1 then w
  else if !force && w.is_cache_valid now2 then w
  else
    let results : List (String × Except Unit (List String)) :=
      w.domains.map (fun d => (d, Except.ok (resolveDomainSync resolver d)))
    { w with
        cache := refreshMergeLoop w.cache results []
        last_update := some now2 }

/-- Membership of an IP in the cached IP set of any domain
(the `for domain, ips in self._cache.items(): if client_ip in ips` loops). -/
def cacheMember (cache : List (String × List String)) (client_ip : String) : Bool :=
  cache.any (fun e => e.2.contains client_ip)

/-- `WhitelistManager.is_whitelisted(client_ip)`: TTL-gated refresh,
membership check, and on a miss one forced refresh and a re-check.
`t1 t2` are the clock readings of the first refresh, `t3 t4` those of
the forced one.  Returns the result and the updated manager state. -/
def WhitelistManager.is_whitelisted (w : WhitelistManager)
    (resolver : String → DnsOutcome) (t1 t2 t3 t4 : Int) (client_ip : String) :
    Bool × WhitelistManager :=
  let w1 := w.refresh_cache resolver t1 t2 false
  if cacheMember w1.cache client_ip then (true, w1)
  else
    let w2 := w1.refresh_cache resolver t3 t4 true
    (cacheMember w2.cache client_ip, w2)

/-! ## `routes.py` — the `get_certificate` handler

`settings.targets_dir` and `_find_local_cert_file` touch the
filesystem; the environment records the outcome as `localCert`, the
filename of the zip file the handler would find (or `none`).  The
`_whitelist_manager`/`_token_validator` globals are modelled as always
initialised (`init_routes` sets both). -/

/-- Response body: a `FileResponse` serving the local artifact, or a
`JSONResponse` content `{"status": ..., "message": ...}`. -/
inductive Body where
  | file (filename : String)
  | json (status message : String)
deriving Repr, DecidableEq

/-- HTTP status code plus body. -/
structure Response where
  status_code : Nat
  body : Body
deriving Repr, DecidableEq

/-- One record of `_log_audit` (its deterministic fields: the wall-clock
timestamp and user agent are omitted). -/
structure AuditRecord where
  client_ip : String
  filename : String
  status : String
  token_masked : String
  reason : String
deriving Repr, DecidableEq

/-- The `token_masked` field of `_log_audit`:
`sanitize_log_token(token) if token else "none"`. -/
def auditMaskedToken (token : String) : String :=
  if token = "" then "none" else sanitize_log_token token 4

/-- Build the audit record `_log_audit(request, filename, status, token, reason)`
emits for a request from `client_ip`. -/
def mkAudit (client_ip filename status token reason : String) : AuditRecord :=
  { client_ip := client_ip, filename := filename, status := status,
    token_masked := auditMaskedToken token, reason := reason }

/-- Environment of one `get_certificate` call: the `domain_list`
setting, the artifact `_find_local_cert_file` finds, the DNS oracle,
and the clock readings any whitelist refreshes would observe. -/
structure HandlerEnv where
  domain_list : List String
  localCert : Option String
  resolver : String → DnsOutcome
  t1 : Int
  t2 : Int
  t3 : Int
  t4 : Int

/-- Everything a `get_certificate` call produces: the HTTP response,
the audit records emitted (in order), and the updated validator and
whitelist states. -/
structure HandlerResult where
  response : Response
  audits : List AuditRecord
  validator : TokenValidator
  whitelist : WhitelistManager
deriving Repr, DecidableEq

/-- `get_certificate` from the local-artifact lookup on (lines 231–325):
locate the artifact, parse both filenames, and branch on
`download` and the name/timestamp comparison.  The two final
conditional-check branches (`local_timestamp > remote_timestamp` and
`local_timestamp < remote_timestamp`) contain no `_log_audit` call in
the source. -/
def handleArtifact (env : HandlerEnv) (wm : WhitelistManager)
    (tv : TokenValidator) (file_name token : String) (download : Bool)
    (client_ip : String) : HandlerResult :=
  match env.localCert with
  | none =>
    { response := ⟨404, .json "error" "No certificate file available"⟩,
      audits := [mkAudit client_ip file_name "error" token "server_no_local_cert_file"],
      validator := tv, whitelist := wm }
  | some localName =>
    match parseCertFilename localName with
    | none =>
      { response := ⟨500, .json "error" "Server configuration error"⟩,
        audits := [mkAudit client_ip file_name "error" token "server_invalid_local_filename"],
        validator := tv, whitelist := wm }
    | some (local_name, local_timestamp) =>
      match parseCertFilename file_name with
      | none =>
        { response := ⟨400, .json "error" "Invalid filename format"⟩,
          audits := [mkAudit client_ip file_name "denied" token "client_invalid_filename_format"],
          validator := tv, whitelist := wm }
      | some (remote_name, remote_timestamp) =>
        if download then
          if local_name = remote_name then
            { response := ⟨200, .file localName⟩,
              audits := [mkAudit client_ip file_name "success_download" token "forced_download"],
              validator := tv, whitelist := wm }
          else
            { response := ⟨404, .json "error" "Certificate not found"⟩,
              audits := [mkAudit client_ip file_name "denied" token
                ("download_name_mismatch_expected_" ++ local_name)],
              validator := tv, whitelist := wm }
        else if local_name ≠ remote_name then
          { response := ⟨400, .json "error" "Certificate name mismatch"⟩,
            audits := [mkAudit client_ip file_name "denied" token
              ("update_check_name_mismatch_expected_" ++ local_name)],
            validator := tv, whitelist := wm }
        else if local_timestamp = remote_timestamp then
          { response := ⟨200, .json "ok" "Certificate is up to date"⟩,
            audits := [mkAudit client_ip file_name "success_up_to_date" token ""],
            validator := tv, whitelist := wm }
        else if remote_timestamp < local_timestamp then
          { response := ⟨200, .file localName⟩,
            audits := [],
            validator := tv, whitelist := wm }
        else
          { response := ⟨400, .json "error" "Invalid timestamp"⟩,
            audits := [],
            validator := tv, whitelist := wm }

/-- `get_certificate` from the block check on (lines 195–229): the
`is_blocked` gate, then `validate(token, file_name, client_ip)` (both
arms of the `try` around the pre-parse set `target_file = file_name`,
so the parse outcome does not affect the call). -/
def handleAuth (env : HandlerEnv) (wm : WhitelistManager) (tv : TokenValidator)
    (file_name token : String) (download : Bool) (client_ip : String) :
    HandlerResult :=
  if tv.is_blocked client_ip then
    { response := ⟨429, .json "error" "Too many failed authentication attempts"⟩,
      audits := [mkAudit client_ip file_name "denied" token "client_blocked"],
      validator := tv, whitelist := wm }
  else
    let r := tv.validate token file_name (some client_ip)
    if !r.1 then
      { response := ⟨403, .json "error" "Unauthorized access"⟩,
        audits := [mkAudit client_ip file_name "denied" token "unauthorized_or_invalid_token"],
        validator := r.2, whitelist := wm }
    else
      handleArtifact env wm r.2 file_name token download client_ip

/-- `routes.get_certificate(file_name, request, token, download)` for a
request whose client IP is `client_ip`.  The whitelist gate runs only
when `settings.domain_list` is truthy (non-empty). -/
def get_certificate (env : HandlerEnv) (wm : WhitelistManager)
    (tv : TokenValidator) (file_name token : String) (download : Bool)
    (client_ip : String) : HandlerResult :=
  if env.domain_list.isEmpty then
    handleAuth env wm tv file_name token download client_ip
  else
    let r := wm.is_whitelisted env.resolver env.t1 env.t2 env.t3 env.t4 client_ip
    if r.1 then
      handleAuth env r.2 tv file_name token download client_ip
    else
      { response := ⟨403, .json "error" "Client IP not in whitelist"⟩,
        audits := [mkAudit client_ip file_name "denied" token "client_not_whitelisted"],
        validator := tv, whitelist := r.2 }

/-! ## Statement-side characterizations and concrete fixtures -/

/-- The bool result of `TokenValidator.validate` ignores the rate-limit
bookkeeping: it is `verify_access` on the stored token map. -/
def authGates (env : HandlerEnv) (wm : WhitelistManager) (tv : TokenValidator)
    (file_name token client_ip : String) : Bool :=
  (env.domain_list.isEmpty
      || (wm.is_whitelisted env.resolver env.t1 env.t2 env.t3 env.t4 client_ip).1)
    && !tv.is_blocked client_ip
    && verify_access token file_name tv.tokens_map

/-- The conditional-check timestamp branches of `get_certificate`: no
forced download, an artifact is present, both filenames parse, the
names agree and the timestamps differ. -/
def timestampBranch (env : HandlerEnv) (file_name : String) (download : Bool) :
    Bool :=
  !download &&
    (match env.localCert with
     | none => false
     | some lc =>
       match parseCertFilename lc, parseCertFilename file_name with
       | some (ln, lt), some (rn, rt) => ln = rn && !(lt = rt)
       | _, _ => false)

/-- One validation attributed to `ip`: the validator state after
`validate(token, f, ip)` (a failed attempt when the token does not
authorize `f`). -/
def failStep (token f ip : String) (v : TokenValidator) : TokenValidator :=
  (v.validate token f (some ip)).2

/-- Open-mode environment (no whitelist) whose artifact directory holds
`cert_1000.zip`. -/
def envOpen : HandlerEnv :=
  { domain_list := [], localCert := some "cert_1000.zip",
    resolver := fun _ => .success [], t1 := 0, t2 := 0, t3 := 0, t4 := 0 }

/-- Environment whitelisting `example.com` (which resolves to `9.9.9.9`),
artifact `cert_1000.zip`. -/
def envListed : HandlerEnv :=
  { domain_list := ["example.com"], localCert := some "cert_1000.zip",
    resolver := fun _ => .success ["9.9.9.9"],
    t1 := 0, t2 := 0, t3 := 0, t4 := 0 }

/-- A fresh whitelist manager with no configured domains. -/
def wmEmpty : WhitelistManager := WhitelistManager.mk0 []

/-- A fresh whitelist manager configured for `example.com`. -/
def wmDomain : WhitelistManager := WhitelistManager.mk0 ["example.com"]

/-- A whitelist manager whose cache, refreshed at time 0, holds
`10.0.0.1` for `example.com`. -/
def wmCached : WhitelistManager :=
  { domains := ["example.com"], cache_ttl := 300,
    cache := [("example.com", ["10.0.0.1"])], last_update := some 0 }

/-- A validator with one master token `tok`. -/
def tvStar : TokenValidator := TokenValidator.mk0 [("tok", ["*"])]

/-- A validator with one token `good` scoped to `cert_*.zip`. -/
def tvScoped : TokenValidator := TokenValidator.mk0 [("good", ["cert_*.zip"])]

/-- `tvStar` after client `1.2.3.4` has reached the blocking threshold. -/
def tvBlocked : TokenValidator :=
  { tokens_map := [("tok", ["*"])], failed_attempts := [("1.2.3.4", 5)],
    max_failed_attempts := 5 }

/-! # Theorems -/

theorem lookupCount_setCount_self (m : List (String × Nat)) (ip : String) (n : Nat) :
    lookupCount (setCount m ip n) ip = n := by
  unfold lookupCount setCount
  rw [List.find?_cons_of_pos _ (by simp)]

theorem find?_popKey_self (m : List (String × Nat)) (ip : String) :
    (popKey m ip).find? (fun e => e.1 = ip) = none := by
  unfold popKey
  rw [List.find?_eq_none]
  intro x hx
  have hmem := (List.mem_filter.mp hx).2
  simpa using hmem

theorem lookupCount_popKey_self (m : List (String × Nat)) (ip : String) :
    lookupCount (popKey m ip) ip = 0 := by
  unfold lookupCount
  rw [find?_popKey_self]

theorem validate_fst (v : TokenValidator) (token filename : String)
    (cip : Option String) :
    (v.validate token filename cip).1 = verify_access token filename v.tokens_map := by
  rcases cip with _ | ip
  · rfl
  · simp only [TokenValidator.validate]
    split
    · rfl
    · split <;> rfl

theorem validate_snd_success (v : TokenValidator) (token filename ip : String)
    (hip : ip ≠ "")
    (h : verify_access token filename v.tokens_map = true) :
    (v.validate token filename (some ip)).2 =
      { v with failed_attempts := popKey v.failed_attempts ip } := by
  simp [TokenValidator.validate, hip, h]

theorem validate_snd_failure (v : TokenValidator) (token filename ip : String)
    (hip : ip ≠ "")
    (h : verify_access token filename v.tokens_map = false) :
    (v.validate token filename (some ip)).2 =
      { v with failed_attempts :=
          setCount v.failed_attempts ip (lookupCount v.failed_attempts ip + 1) } := by
  simp [TokenValidator.validate, hip, h]

theorem failStep_iter_state (tm : TokensMap) (token f ip : String) (hip : ip ≠ "")
    (hfail : verify_access token f tm = false) (n : Nat) :
    ((failStep token f ip)^[n] (TokenValidator.mk0 tm)).tokens_map = tm ∧
    ((failStep token f ip)^[n] (TokenValidator.mk0 tm)).max_failed_attempts = 5 ∧
    lookupCount ((failStep token f ip)^[n] (TokenValidator.mk0 tm)).failed_attempts ip
      = n := by
  induction n with
  | zero => exact ⟨rfl, rfl, rfl⟩
  | succ n ih =>
    obtain ⟨h1, h2, h3⟩ := ih
    rw [Function.iterate_succ_apply', failStep]
    rw [validate_snd_failure _ _ _ _ hip (by rw [h1]; exact hfail)]
    exact ⟨h1, h2, by rw [lookupCount_setCount_self, h3]⟩

/-- C6: with the threshold at its configured value 5, after `n`
consecutive failed validations attributed to ip (starting from a fresh
validator), `is_blocked ip` holds exactly when `5 ≤ n` — so it becomes
true exactly at the 5th failure — and a single successful validation
from that IP removes the counter entry entirely, making `is_blocked`
false again. -/
theorem C6_blocking_threshold (tm : TokensMap) (token f tokenS fS ip : String)
    (hip : ip ≠ "") (n : Nat)
    (hfail : verify_access token f tm = false)
    (hsucc : verify_access tokenS fS tm = true) :
    ((failStep token f ip)^[n] (TokenValidator.mk0 tm)).is_blocked ip
        = decide (5 ≤ n) ∧
    ((((failStep token f ip)^[n] (TokenValidator.mk0 tm)).validate tokenS fS
        (some ip)).2.failed_attempts.find? (fun e => e.1 = ip) = none) ∧
    ((((failStep token f ip)^[n] (TokenValidator.mk0 tm)).validate tokenS fS
        (some ip)).2.is_blocked ip = false) := by
  obtain ⟨h1, h2, h3⟩ := failStep_iter_state tm token f ip hip hfail n
  have hv := validate_snd_success _ tokenS fS ip hip (by rw [h1]; exact hsucc)
  refine ⟨?_, ?_, ?_⟩
  · unfold TokenValidator.is_blocked
    rw [h2, h3]
  · rw [hv]
    exact find?_popKey_self _ _
  · rw [hv]
    unfold TokenValidator.is_blocked
    dsimp only
    rw [h2, lookupCount_popKey_self]
    rfl

/-- C6 witness: with token map `[(tok, [*])]`, five failed validations
from `1.2.3.4` block the IP, and one successful validation unblocks it. -/
theorem C6_blocking_threshold_witness :
    ((failStep "bad" "cert_1.zip" "1.2.3.4")^[5]
        (TokenValidator.mk0 [("tok", ["*"])])).is_blocked "1.2.3.4" = true ∧
    ((((failStep "bad" "cert_1.zip" "1.2.3.4")^[5]
        (TokenValidator.mk0 [("tok", ["*"])])).validate "tok" "cert_1.zip"
        (some "1.2.3.4")).2.is_blocked "1.2.3.4") = false := by
  have h := C6_blocking_threshold [("tok", ["*"])] "bad" "cert_1.zip" "tok"
    "cert_1.zip" "1.2.3.4" (by decide) 5 (by decide) (by decide)
  exact ⟨h.1.trans rfl, h.2.2⟩

theorem verifyAccessLoop_iff (t f : String) (m : TokensMap)
    (hnodup : (m.map Prod.fst).Nodup) :
    verifyAccessLoop t f m = true ↔
      ∃ P, (t, P) ∈ m ∧ ∃ p ∈ P, fnmatch f p = true := by
  induction m with
  | nil => simp [verifyAccessLoop]
  | cons e rest ih =>
    obtain ⟨k, P0⟩ := e
    rw [List.map_cons, List.nodup_cons] at hnodup
    obtain ⟨hk, hrest⟩ := hnodup
    by_cases hEq : t = k
    · subst hEq
      have hloop : verifyAccessLoop t f ((t, P0) :: rest) =
          P0.any (fun pattern => fnmatch f pattern) := by
        simp [verifyAccessLoop]
      rw [hloop, List.any_eq_true]
      constructor
      · rintro ⟨p, hp, hm⟩
        exact ⟨P0, List.mem_cons_self _ _, p, hp, hm⟩
      · rintro ⟨P, hP, p, hp, hm⟩
        rcases List.mem_cons.mp hP with h | h
        · rw [Prod.mk.injEq] at h
          obtain ⟨-, rfl⟩ := h
          exact ⟨p, hp, hm⟩
        · exact absurd (List.mem_map_of_mem Prod.fst h) hk
    · have hloop : verifyAccessLoop t f ((k, P0) :: rest) =
          verifyAccessLoop t f rest := by
        simp [verifyAccessLoop, hEq]
      rw [hloop, ih hrest]
      constructor
      · rintro ⟨P, hP, hx⟩
        exact ⟨P, List.mem_cons_of_mem _ hP, hx⟩
      · rintro ⟨P, hP, hx⟩
        rcases List.mem_cons.mp hP with h | h
        · rw [Prod.mk.injEq] at h
          exact absurd h.1 hEq
        · exact ⟨P, h, hx⟩

/-- C4: for a validator whose configured tokens are distinct (they are
Python dict keys), `validate(t, f)` returns true iff `t` is non-empty,
`t` is one of the configured tokens, and `f` glob-matches at least one
pattern of the pattern set of `t`; and validation of the empty token
returns false. -/
theorem C4_validate_iff (v : TokenValidator) (t f : String) (cip : Option String)
    (hnodup : (v.tokens_map.map Prod.fst).Nodup) :
    ((v.validate t f cip).1 = true ↔
      t ≠ "" ∧ ∃ P, (t, P) ∈ v.tokens_map ∧ ∃ p ∈ P, fnmatch f p = true) ∧
    (v.validate "" f cip).1 = false := by
  constructor
  · rw [validate_fst]
    unfold verify_access
    by_cases ht : t = ""
    · simp [ht]
    · rw [if_neg ht, verifyAccessLoop_iff t f _ hnodup]
      simp [ht]
  · rw [validate_fst]
    unfold verify_access
    simp

/-- C4 witness: token `tok` with pattern set `[*]` validates for
`cert_1.zip`, and the empty token is rejected. -/
theorem C4_validate_iff_witness :
    ((TokenValidator.mk0 [("tok", ["*"])]).validate "tok" "cert_1.zip" none).1
      = true ∧
    ((TokenValidator.mk0 [("tok", ["*"])]).validate "" "cert_1.zip" none).1
      = false := by
  have h := C4_validate_iff (TokenValidator.mk0 [("tok", ["*"])]) "tok"
    "cert_1.zip" none (by decide)
  exact ⟨h.1.mpr ⟨by decide, ["*"], by decide, "*", by decide, by decide⟩, h.2⟩

/-- C9: a non-forced refresh while the cache is valid (age strictly
below the TTL) leaves the whole manager state — the per-domain IP sets
and the last-update time — unchanged, whether validity holds at the
fast-path check or at the re-check under the lock. -/
theorem C9_refresh_noop (w : WhitelistManager) (resolver : String → DnsOutcome)
    (now1 now2 : Int)
    (h : w.is_cache_valid now1 = true ∨ w.is_cache_valid now2 = true) :
    w.refresh_cache resolver now1 now2 false = w := by
  unfold WhitelistManager.refresh_cache
  rcases h with h | h <;> simp [h]

/-- C9 witness: a cache updated at time 0 with TTL 300 is untouched by a
non-forced refresh at time 100. -/
theorem C9_refresh_noop_witness :
    wmCached.refresh_cache (fun _ => DnsOutcome.gaierror) 100 100 false
      = wmCached :=
  C9_refresh_noop wmCached (fun _ => DnsOutcome.gaierror) 100 100
    (Or.inl (by decide))

/-- C2: evaluation at the failing input.  `example.com` is cached as
`{10.0.0.1}`; in the next refresh cycle its resolution fails with
`socket.gaierror`.  `_resolve_domain_sync` swallows the error and
returns an empty set, so the keep-old-entry branch of `refresh_cache`
never fires and the new cache stores the empty set for the domain —
the previously cached IP set is cleared, although both the spec and
the in-code comment (`Keep old cache entry if available`) intend it to
be kept. -/
theorem C2_resolution_failure_clears_entry :
    (wmCached.refresh_cache (fun _ => DnsOutcome.gaierror) 1000 1000 false).cache
      = [("example.com", [])] := by decide

theorem refresh_cache_forced_last_update (w : WhitelistManager)
    (resolver : String → DnsOutcome) (t3 t4 : Int) :
    (w.refresh_cache resolver t3 t4 true).last_update = some t4 := by
  simp [WhitelistManager.refresh_cache]

/-- C8: `is_whitelisted` first runs the TTL-gated refresh; if the IP is
a member of some cached IP set it returns true with no further refresh;
on a miss it performs exactly one forced refresh (stamping the cache at
the forced-refresh time, TTL notwithstanding) and returns the re-check
of membership against the refreshed cache. -/
theorem C8_is_whitelisted_spec (w : WhitelistManager)
    (resolver : String → DnsOutcome) (t1 t2 t3 t4 : Int) (ip : String) :
    (cacheMember (w.refresh_cache resolver t1 t2 false).cache ip = true →
      w.is_whitelisted resolver t1 t2 t3 t4 ip =
        (true, w.refresh_cache resolver t1 t2 false)) ∧
    (cacheMember (w.refresh_cache resolver t1 t2 false).cache ip = false →
      w.is_whitelisted resolver t1 t2 t3 t4 ip =
        (cacheMember
            ((w.refresh_cache resolver t1 t2 false).refresh_cache
              resolver t3 t4 true).cache ip,
          (w.refresh_cache resolver t1 t2 false).refresh_cache
            resolver t3 t4 true) ∧
      (w.is_whitelisted resolver t1 t2 t3 t4 ip).2.last_update = some t4) := by
  constructor
  · intro h
    simp [WhitelistManager.is_whitelisted, h]
  · intro h
    refine ⟨by simp [WhitelistManager.is_whitelisted, h], ?_⟩
    simp [WhitelistManager.is_whitelisted, h, refresh_cache_forced_last_update]

/-- C8 witness: a fresh manager for `example.com` resolving to
`1.2.3.4` whitelists `1.2.3.4` after its initial refresh, with no
forced refresh. -/
theorem C8_is_whitelisted_spec_witness :
    wmDomain.is_whitelisted (fun _ => DnsOutcome.success ["1.2.3.4"]) 0 0 0 0
        "1.2.3.4" =
      (true,
        wmDomain.refresh_cache (fun _ => DnsOutcome.success ["1.2.3.4"]) 0 0
          false) :=
  (C8_is_whitelisted_spec wmDomain (fun _ => DnsOutcome.success ["1.2.3.4"])
    0 0 0 0 "1.2.3.4").1 (by decide)

theorem handleAuth_blocked (env : HandlerEnv) (wm : WhitelistManager)
    (tv : TokenValidator) (fn tok : String) (d : Bool) (ip : String)
    (hb : tv.is_blocked ip = true) :
    handleAuth env wm tv fn tok d ip =
      { response := ⟨429, .json "error" "Too many failed authentication attempts"⟩,
        audits := [mkAudit ip fn "denied" tok "client_blocked"],
        validator := tv, whitelist := wm } := by
  simp [handleAuth, hb]

theorem handleAuth_denied (env : HandlerEnv) (wm : WhitelistManager)
    (tv : TokenValidator) (fn tok : String) (d : Bool) (ip : String)
    (hb : tv.is_blocked ip = false)
    (ht : verify_access tok fn tv.tokens_map = false) :
    handleAuth env wm tv fn tok d ip =
      { response := ⟨403, .json "error" "Unauthorized access"⟩,
        audits := [mkAudit ip fn "denied" tok "unauthorized_or_invalid_token"],
        validator := (tv.validate tok fn (some ip)).2, whitelist := wm } := by
  simp [handleAuth, hb, validate_fst, ht]

theorem handleAuth_passes (env : HandlerEnv) (wm : WhitelistManager)
    (tv : TokenValidator) (fn tok : String) (d : Bool) (ip : String)
    (hb : tv.is_blocked ip = false)
    (ht : verify_access tok fn tv.tokens_map = true) :
    handleAuth env wm tv fn tok d ip =
      handleArtifact env wm (tv.validate tok fn (some ip)).2 fn tok d ip := by
  simp [handleAuth, hb, validate_fst, ht]

theorem get_certificate_gate (env : HandlerEnv) (wm : WhitelistManager)
    (tv : TokenValidator) (fn tok : String) (d : Bool) (ip : String)
    (hw : env.domain_list.isEmpty = true ∨
      (wm.is_whitelisted env.resolver env.t1 env.t2 env.t3 env.t4 ip).1 = true) :
    get_certificate env wm tv fn tok d ip =
      handleAuth env
        (if env.domain_list.isEmpty then wm
         else (wm.is_whitelisted env.resolver env.t1 env.t2 env.t3 env.t4 ip).2)
        tv fn tok d ip := by
  by_cases he : env.domain_list.isEmpty
  · simp [get_certificate, he]
  · rcases hw with hw | hw
    · exact absurd hw he
    · simp [get_certificate, he, hw]

/-- C1: for a request that passed the whitelist, block and token gates,
with an artifact present and both filenames parsing: forced download
returns the artifact with 200 on a name match and 404 otherwise;
a conditional check returns 400 on a name mismatch, the up-to-date JSON
with 200 on equal timestamps, the artifact with 200 when the local
timestamp is newer, and 400 when the requested timestamp is newer. -/
theorem C1_freshness_decision (env : HandlerEnv) (wm : WhitelistManager)
    (tv : TokenValidator) (file_name token : String) (download : Bool)
    (client_ip lc ln rn : String) (lt rt : Int)
    (hw : env.domain_list.isEmpty = true ∨
      (wm.is_whitelisted env.resolver env.t1 env.t2 env.t3 env.t4 client_ip).1
        = true)
    (hb : tv.is_blocked client_ip = false)
    (ht : verify_access token file_name tv.tokens_map = true)
    (hl : env.localCert = some lc)
    (hpl : parseCertFilename lc = some (ln, lt))
    (hpr : parseCertFilename file_name = some (rn, rt)) :
    (download = true →
      (ln = rn →
        (get_certificate env wm tv file_name token download client_ip).response
          = ⟨200, .file lc⟩) ∧
      (ln ≠ rn →
        (get_certificate env wm tv file_name token download client_ip).response
          = ⟨404, .json "error" "Certificate not found"⟩)) ∧
    (download = false →
      (ln ≠ rn →
        (get_certificate env wm tv file_name token download client_ip).response
          = ⟨400, .json "error" "Certificate name mismatch"⟩) ∧
      (ln = rn →
        (lt = rt →
          (get_certificate env wm tv file_name token download client_ip).response
            = ⟨200, .json "ok" "Certificate is up to date"⟩) ∧
        (rt < lt →
          (get_certificate env wm tv file_name token download client_ip).response
            = ⟨200, .file lc⟩) ∧
        (lt < rt →
          (get_certificate env wm tv file_name token download client_ip).response
            = ⟨400, .json "error" "Invalid timestamp"⟩))) := by
  rw [get_certificate_gate env wm tv file_name token download client_ip hw,
    handleAuth_passes _ _ _ _ _ _ _ hb ht]
  simp only [handleArtifact, hl, hpl, hpr]
  refine ⟨fun hd => ⟨fun hn => ?_, fun hn => ?_⟩,
    fun hd => ⟨fun hn => ?_, fun hn =>
      ⟨fun hts => ?_, fun hts => ?_, fun hts => ?_⟩⟩⟩ <;> subst hd
  · subst hn; simp
  · simp [hn]
  · simp [hn]
  · subst hn; simp [hts]
  · subst hn; simp [hts.ne', hts]
  · subst hn; simp [hts.ne, hts.asymm]

/-- C1 witness: in open mode with the master token, a conditional check
for the exact artifact name and timestamp returns the up-to-date JSON
with status 200. -/
theorem C1_freshness_decision_witness :
    (get_certificate envOpen wmEmpty tvStar "cert_1000.zip" "tok" false
        "1.2.3.4").response
      = ⟨200, Body.json "ok" "Certificate is up to date"⟩ := by
  have h := C1_freshness_decision envOpen wmEmpty tvStar "cert_1000.zip" "tok"
    false "1.2.3.4" "cert_1000.zip" "cert" "cert" 1000 1000
    (Or.inl (by decide)) (by decide) (by decide) (by decide) (by decide)
    (by decide)
  exact ((h.2 rfl).2 rfl).1 rfl

/-- C5 counterexample: a token matching no configured entry
(run one) and a configured token whose patterns do not cover the
requested filename (run two) are audited with the same reason string
`unauthorized_or_invalid_token` — not with the two distinct reasons
`invalid_token` and `unauthorized_resource` the claim requires. -/
theorem C5_counterexample :
    ((get_certificate envOpen wmEmpty tvScoped "cert_1.zip" "bad" false
        "1.2.3.4").audits.map AuditRecord.reason
      = ["unauthorized_or_invalid_token"]) ∧
    ((get_certificate envOpen wmEmpty tvScoped "other_1.zip" "good" false
        "1.2.3.4").audits.map AuditRecord.reason
      = ["unauthorized_or_invalid_token"]) := by decide

/-- C5 amended: every authentication denial — an unknown token and a
known token without a matching pattern alike — is returned with status
403 and audited with the single merged reason
`unauthorized_or_invalid_token`; the audit does not distinguish the two
failure modes. -/
theorem C5_auth_denial_single_reason (env : HandlerEnv) (wm : WhitelistManager)
    (tv : TokenValidator) (fn tok : String) (d : Bool) (ip : String)
    (hw : env.domain_list.isEmpty = true ∨
      (wm.is_whitelisted env.resolver env.t1 env.t2 env.t3 env.t4 ip).1 = true)
    (hb : tv.is_blocked ip = false)
    (ht : verify_access tok fn tv.tokens_map = false) :
    (get_certificate env wm tv fn tok d ip).response
      = ⟨403, .json "error" "Unauthorized access"⟩ ∧
    (get_certificate env wm tv fn tok d ip).audits
      = [mkAudit ip fn "denied" tok "unauthorized_or_invalid_token"] := by
  rw [get_certificate_gate _ _ _ _ _ _ _ hw,
    handleAuth_denied _ _ _ _ _ _ _ hb ht]
  exact ⟨rfl, rfl⟩

/-- C5 amended witness: an unknown token is denied with 403 and the
merged audit reason. -/
theorem C5_auth_denial_single_reason_witness :
    (get_certificate envOpen wmEmpty tvStar "cert_1.zip" "bad" false
        "9.9.9.9").audits
      = [mkAudit "9.9.9.9" "cert_1.zip" "denied" "bad"
          "unauthorized_or_invalid_token"] :=
  (C5_auth_denial_single_reason envOpen wmEmpty tvStar "cert_1.zip" "bad" false
    "9.9.9.9" (Or.inl (by decide)) (by decide) (by decide)).2

/-- C10 counterexample: `1.2.3.4` has reached the blocking threshold,
but with a whitelist configured that does not contain it, its request
is denied with status 403 (not whitelisted), not 429. -/
theorem C10_counterexample :
    tvBlocked.is_blocked "1.2.3.4" = true ∧
    (get_certificate envListed wmDomain tvBlocked "cert_1000.zip" "tok" false
        "1.2.3.4").response.status_code = 403 := by decide

/-- C10 amended: once an IP has reached the threshold, a request from
it passing (or skipping) the whitelist gate is denied 429; in every
case the handler never reaches token validation, the validator state is
returned unchanged and the IP remains blocked; the explicit
`reset_attempts` clears the counter, unblocking (for a positive
threshold). -/
theorem C10_blocked_persists (env : HandlerEnv) (wm : WhitelistManager)
    (tv : TokenValidator) (fn tok : String) (d : Bool) (ip : String)
    (hblk : tv.is_blocked ip = true) (hmax : 0 < tv.max_failed_attempts) :
    ((env.domain_list.isEmpty = true ∨
        (wm.is_whitelisted env.resolver env.t1 env.t2 env.t3 env.t4 ip).1
          = true) →
      (get_certificate env wm tv fn tok d ip).response
        = ⟨429, .json "error" "Too many failed authentication attempts"⟩) ∧
    (get_certificate env wm tv fn tok d ip).validator = tv ∧
    (get_certificate env wm tv fn tok d ip).validator.is_blocked ip = true ∧
    (tv.reset_attempts ip).is_blocked ip = false := by
  have hv2 : (get_certificate env wm tv fn tok d ip).validator = tv := by
    by_cases he : env.domain_list.isEmpty = true
    · rw [get_certificate_gate _ _ _ _ _ _ _ (Or.inl he),
        handleAuth_blocked _ _ _ _ _ _ _ hblk]
    · by_cases hwl : (wm.is_whitelisted env.resolver env.t1 env.t2 env.t3
          env.t4 ip).1 = true
      · rw [get_certificate_gate _ _ _ _ _ _ _ (Or.inr hwl),
          handleAuth_blocked _ _ _ _ _ _ _ hblk]
      · simp [get_certificate, he, hwl]
  refine ⟨?_, hv2, by rw [hv2]; exact hblk, ?_⟩
  · intro hw
    rw [get_certificate_gate _ _ _ _ _ _ _ hw,
      handleAuth_blocked _ _ _ _ _ _ _ hblk]
  · unfold TokenValidator.reset_attempts TokenValidator.is_blocked
    dsimp only
    rw [lookupCount_popKey_self]
    simp only [decide_eq_false_iff_not, Nat.le_zero]
    omega

/-- C10 amended witness: a blocked IP in open mode gets 429 and the
validator state is unchanged. -/
theorem C10_blocked_persists_witness :
    (get_certificate envOpen wmEmpty tvBlocked "cert_1000.zip" "tok" false
        "1.2.3.4").response
      = ⟨429, Body.json "error" "Too many failed authentication attempts"⟩ ∧
    (get_certificate envOpen wmEmpty tvBlocked "cert_1000.zip" "tok" false
        "1.2.3.4").validator = tvBlocked := by
  have h := C10_blocked_persists envOpen wmEmpty tvBlocked "cert_1000.zip"
    "tok" false "1.2.3.4" (by decide) (by decide)
  exact ⟨h.1 (Or.inl (by decide)), h.2.1⟩

/-- C3 counterexample: a request that passes every gate and hits the
server-newer conditional branch (local `cert_1000` against requested
`cert_500`) returns the artifact but emits zero audit records. -/
theorem C3_counterexample :
    (get_certificate envOpen wmEmpty tvStar "cert_500.zip" "tok" false
        "1.2.3.4").response = ⟨200, Body.file "cert_1000.zip"⟩ ∧
    (get_certificate envOpen wmEmpty tvStar "cert_500.zip" "tok" false
        "1.2.3.4").audits.length = 0 := by decide

theorem handleArtifact_audits_length (env : HandlerEnv) (wm : WhitelistManager)
    (tv : TokenValidator) (fn tok : String) (d : Bool) (ip : String) :
    (handleArtifact env wm tv fn tok d ip).audits.length =
      if timestampBranch env fn d = true then 0 else 1 := by
  unfold handleArtifact timestampBranch
  cases hl : env.localCert with
  | none => simp
  | some lc =>
    cases hpl : parseCertFilename lc with
    | none => simp [hpl]
    | some pl =>
      obtain ⟨ln, lt⟩ := pl
      cases hpr : parseCertFilename fn with
      | none => simp [hpl, hpr]
      | some pr =>
        obtain ⟨rn, rt⟩ := pr
        cases d with
        | true =>
          by_cases hn : ln = rn <;> simp [hpl, hpr, hn]
        | false =>
          by_cases hn : ln = rn
          · subst hn
            by_cases hts : lt = rt
            · simp [hpl, hpr, hts]
            · by_cases hlt : rt < lt <;> simp [hpl, hpr, hts, hlt]
          · simp [hpl, hpr, hn]

theorem handleAuth_audits_length (env : HandlerEnv) (wm : WhitelistManager)
    (tv : TokenValidator) (fn tok : String) (d : Bool) (ip : String) :
    (handleAuth env wm tv fn tok d ip).audits.length =
      if (!tv.is_blocked ip && verify_access tok fn tv.tokens_map
            && timestampBranch env fn d) = true
      then 0 else 1 := by
  by_cases hb : tv.is_blocked ip = true
  · rw [handleAuth_blocked _ _ _ _ _ _ _ hb, hb]
    simp
  · have hb2 : tv.is_blocked ip = false := by
      revert hb; cases tv.is_blocked ip <;> simp
    by_cases ht : verify_access tok fn tv.tokens_map = true
    · rw [handleAuth_passes _ _ _ _ _ _ _ hb2 ht, hb2, ht,
        handleArtifact_audits_length]
      simp
    · have ht2 : verify_access tok fn tv.tokens_map = false := by
        revert ht; cases verify_access tok fn tv.tokens_map <;> simp
      rw [handleAuth_denied _ _ _ _ _ _ _ hb2 ht2, ht2, hb2]
      simp

/-- C3 amended: every terminal branch of the handler emits exactly one
audit record, except the two conditional-check timestamp branches
(serving the artifact because the local timestamp is newer, and the 400
rejection because the requested timestamp is newer), which emit none:
the audit count is 0 exactly when all gates pass and that timestamp
branch is taken, and 1 otherwise. -/
theorem C3_audit_per_request (env : HandlerEnv) (wm : WhitelistManager)
    (tv : TokenValidator) (fn tok : String) (d : Bool) (ip : String) :
    (get_certificate env wm tv fn tok d ip).audits.length =
      if (authGates env wm tv fn tok ip && timestampBranch env fn d) = true
      then 0 else 1 := by
  unfold authGates
  by_cases he : env.domain_list.isEmpty = true
  · rw [get_certificate_gate _ _ _ _ _ _ _ (Or.inl he),
      handleAuth_audits_length, he]
    simp
  · by_cases hwl : (wm.is_whitelisted env.resolver env.t1 env.t2 env.t3
        env.t4 ip).1 = true
    · rw [get_certificate_gate _ _ _ _ _ _ _ (Or.inr hwl),
        handleAuth_audits_length, hwl]
      simp
    · simp [get_certificate, he, hwl]

/-- C7 counterexample: `cert.zip_123` contains `.zip` not as the
extension — a deviation from the `{name}_{unix_timestamp}.zip` grammar
which the claim says is rejected — yet `_parse_cert_filename` accepts
it, deleting the interior `.zip` and returning `(cert, 123)`. -/
theorem C7_counterexample :
    parseCertFilename "cert.zip_123" = some ("cert", 123) := by decide

theorem rsplitUnderscore_eq_none_iff (l : List Char) :
    rsplitUnderscore l = none ↔ '_' ∉ l := by
  induction l with
  | nil => simp [rsplitUnderscore]
  | cons c rest ih =>
    cases h : rsplitUnderscore rest with
    | some ab =>
      have hmem : '_' ∈ rest := by
        by_contra hno
        rw [← ih] at hno
        rw [h] at hno
        exact Option.noConfusion hno
      simp [rsplitUnderscore, h, hmem]
    | none =>
      have hno : '_' ∉ rest := ih.mp h
      by_cases hc : c = '_'
      · simp [rsplitUnderscore, h, hc]
      · simp [rsplitUnderscore, h, hc, hno, Ne.symm hc]

theorem rsplitUnderscore_eq_some_iff (l a b : List Char) :
    rsplitUnderscore l = some (a, b) ↔ l = a ++ '_' :: b ∧ '_' ∉ b := by
  induction l generalizing a b with
  | nil =>
    constructor
    · intro h; exact Option.noConfusion h
    · rintro ⟨h, -⟩
      exact absurd h (by simp)
  | cons c rest ih =>
    cases h : rsplitUnderscore rest with
    | some ab =>
      obtain ⟨a0, b0⟩ := ab
      obtain ⟨hdec, hb0⟩ := (ih a0 b0).mp h
      simp only [rsplitUnderscore, h]
      constructor
      · intro he
        rw [Option.some.injEq, Prod.mk.injEq] at he
        obtain ⟨rfl, rfl⟩ := he
        exact ⟨by rw [hdec]; simp, hb0⟩
      · rintro ⟨hsplit, hb⟩
        cases a with
        | nil =>
          rw [List.nil_append] at hsplit
          obtain ⟨-, rfl⟩ := List.cons.injEq .. ▸ hsplit
          exact absurd (hdec ▸ (List.mem_append_right a0 (List.mem_cons_self _ _))) hb
        | cons c2 a2 =>
          rw [List.cons_append] at hsplit
          obtain ⟨rfl, hrest⟩ := List.cons.injEq .. ▸ hsplit
          have h2 := (ih a2 b).mpr ⟨hrest, hb⟩
          rw [h] at h2
          rw [Option.some.injEq, Prod.mk.injEq] at h2
          obtain ⟨rfl, rfl⟩ := h2
          simp
    | none =>
      have hno : '_' ∉ rest := (rsplitUnderscore_eq_none_iff rest).mp h
      by_cases hc : c = '_'
      · subst hc
        have hstep : rsplitUnderscore ('_' :: rest) = some ([], rest) := by
          simp [rsplitUnderscore, h]
        rw [hstep]
        constructor
        · intro he
          rw [Option.some.injEq, Prod.mk.injEq] at he
          obtain ⟨rfl, rfl⟩ := he
          exact ⟨by simp, hno⟩
        · rintro ⟨hsplit, hb⟩
          cases a with
          | nil =>
            rw [List.nil_append] at hsplit
            obtain ⟨-, rfl⟩ := List.cons.injEq .. ▸ hsplit
            rfl
          | cons c2 a2 =>
            rw [List.cons_append] at hsplit
            obtain ⟨rfl, hrest⟩ := List.cons.injEq .. ▸ hsplit
            exact absurd (hrest ▸ (List.mem_append_right a2 (List.mem_cons_self _ _))) hno
      · simp only [rsplitUnderscore, h, if_neg hc]
        constructor
        · intro he; exact Option.noConfusion he
        · rintro ⟨hsplit, hb⟩
          cases a with
          | nil =>
            rw [List.nil_append] at hsplit
            obtain ⟨hch, -⟩ := List.cons.injEq .. ▸ hsplit
            exact absurd hch hc
          | cons c2 a2 =>
            rw [List.cons_append] at hsplit
            obtain ⟨rfl, hrest⟩ := List.cons.injEq .. ▸ hsplit
            exact absurd (hrest ▸ (List.mem_append_right a2 (List.mem_cons_self _ _))) hno

/-- C7 amended: `_parse_cert_filename` accepts `filename` with result
`(name, ts)` iff, after deleting every occurrence of the substring
`.zip` (so the extension is optional and interior `.zip` substrings are
removed rather than rejected), the remainder decomposes as the name,
one final `_`, and a last field containing no `_` that parses as a
Python decimal integer `ts`; a remainder with no `_` at all or a
non-integer final field is rejected. -/
theorem parseCertFilename_eq (filename : String) :
    parseCertFilename filename =
      match rsplitUnderscore (removeZip filename.data) with
      | none => none
      | some (nm, tsChars) =>
        match pyInt (String.mk tsChars) with
        | none => none
        | some ts => some (String.mk nm, ts) := rfl

/-- C7 amended: `_parse_cert_filename` accepts `filename` with result
`(name, ts)` iff, after deleting every occurrence of the substring
`.zip` (so the extension is optional and interior `.zip` substrings are
removed rather than rejected), the remainder decomposes as the name,
one final `_`, and a last field containing no `_` that parses as a
Python decimal integer `ts`; a remainder with no `_` at all or a
non-integer final field is rejected. -/
theorem C7_parse_spec (filename name : String) (ts : Int) :
    parseCertFilename filename = some (name, ts) ↔
      ∃ tsChars : List Char,
        removeZip filename.data = name.data ++ '_' :: tsChars ∧
        '_' ∉ tsChars ∧
        pyInt (String.mk tsChars) = some ts := by
  cases h : rsplitUnderscore (removeZip filename.data) with
  | none =>
    have hEq : parseCertFilename filename = none := by
      rw [parseCertFilename_eq, h]
    rw [hEq]
    constructor
    · intro he
      exact Option.noConfusion he
    · rintro ⟨tsChars, hdec, hmem, -⟩
      have h2 := (rsplitUnderscore_eq_some_iff (removeZip filename.data)
        name.data tsChars).mpr ⟨hdec, hmem⟩
      rw [h] at h2
      exact Option.noConfusion h2
  | some ab =>
    obtain ⟨a, b⟩ := ab
    obtain ⟨hdec, hb⟩ := (rsplitUnderscore_eq_some_iff _ a b).mp h
    cases hp : pyInt (String.mk b) with
    | none =>
      have hEq : parseCertFilename filename = none := by
        rw [parseCertFilename_eq, h]
        show (match pyInt (String.mk b) with
              | none => none
              | some ts => some (String.mk a, ts)) = none
        rw [hp]
      rw [hEq]
      constructor
      · intro he
        exact Option.noConfusion he
      · rintro ⟨tsChars, hdec2, hmem2, hp2⟩
        have h2 := (rsplitUnderscore_eq_some_iff (removeZip filename.data)
          name.data tsChars).mpr ⟨hdec2, hmem2⟩
        rw [h] at h2
        rw [Option.some.injEq, Prod.mk.injEq] at h2
        obtain ⟨rfl, rfl⟩ := h2
        rw [hp] at hp2
        exact Option.noConfusion hp2
    | some t =>
      have hEq : parseCertFilename filename = some (String.mk a, t) := by
        rw [parseCertFilename_eq, h]
        show (match pyInt (String.mk b) with
              | none => none
              | some ts => some (String.mk a, ts)) = some (String.mk a, t)
        rw [hp]
      rw [hEq]
      constructor
      · intro he
        rw [Option.some.injEq, Prod.mk.injEq] at he
        obtain ⟨rfl, rfl⟩ := he
        exact ⟨b, hdec, hb, hp⟩
      · rintro ⟨tsChars, hdec2, hmem2, hp2⟩
        have h2 := (rsplitUnderscore_eq_some_iff (removeZip filename.data)
          name.data tsChars).mpr ⟨hdec2, hmem2⟩
        rw [h] at h2
        rw [Option.some.injEq, Prod.mk.injEq] at h2
        obtain ⟨ha, rfl⟩ := h2
        rw [hp] at hp2
        rw [Option.some.injEq] at hp2
        subst hp2
        rw [ha]

/-- C7 amended witness: the well-formed `mycert_1699999999.zip` parses
to `(mycert, 1699999999)`. -/
theorem C7_parse_spec_witness :
    parseCertFilename "mycert_1699999999.zip" = some ("mycert", 1699999999) :=
  (C7_parse_spec "mycert_1699999999.zip" "mycert" 1699999999).mpr
    ⟨"1699999999".data, by decide, by decide, by decide⟩

end CertDeliver
